import Mathlib

/-
Verification of `scripts/check_feeds.py`, an RSS feed health checker.

The script is embedded shallowly:

* XML elements become the inductive type `Elem` (tag, optional text,
  children); `ET.parse` outcomes become `Except String Elem`, where the
  error carries the `ET.ParseError` message.
* `email.utils.parsedate_to_datetime` (standard library, outside this
  repository) is abstracted as a parameter `pd : String → Option PDate`.
  A `PDate` carries an absolute timestamp in seconds (`stamp`), whether
  the parsed datetime is timezone-aware (`aware` — per the Python
  documentation, an RFC-2822 date with no timezone or with `-0000`
  yields a naive datetime), and its `%Y-%m-%d` rendering (`ymd`).
  `pd txt = none` models `parsedate_to_datetime` raising.
* Python datetime comparison between a naive and an aware value raises
  `TypeError`; in `updNewest` this is swallowed by the surrounding
  `except Exception: pass` (no update), while in the freshness step the
  subtraction `now - newest_date` is not guarded, so `check_feed` itself
  raises: modelled by `check_feed` returning `none`.
* `datetime.now(timezone.utc)` becomes the parameter `now : Int`
  (absolute seconds); `timedelta(days=30)` is `staleSeconds` seconds and
  `age.days` is floor division of the age in seconds by 86400.
* `main` is modelled on the abstract inputs it consumes: whether the
  feeds directory exists, and the sorted list of parse outcomes of the
  matched `feed_*.xml` files.  Console printing is a side effect with no
  bearing on the returned buckets or the exit status and is not modelled.
-/

namespace CheckFeeds

/-- A parsed publication date: absolute seconds, awareness flag, and the
`%Y-%m-%d` rendering used by the stale-warning message. -/
structure PDate where
  stamp : Int
  aware : Bool
  ymd : String
  deriving Repr, DecidableEq

/-- An XML element: tag, optional text content, child elements. -/
inductive Elem where
  | mk (tag : String) (text : Option String) (children : List Elem)

def Elem.tag : Elem → String
  | .mk t _ _ => t

def Elem.text : Elem → Option String
  | .mk _ x _ => x

def Elem.children : Elem → List Elem
  | .mk _ _ cs => cs

mutual

/-- Preorder traversal of the subtree rooted at `e`, keeping elements
whose tag is `item` (including `e` itself), as `e.iter("item")` does. -/
def Elem.iterItems : Elem → List Elem
  | .mk t x cs => (if t = "item" then [Elem.mk t x cs] else []) ++ iterItemsList cs

def iterItemsList : List Elem → List Elem
  | [] => []
  | c :: cs => Elem.iterItems c ++ iterItemsList cs

end

/-- The query `root.findall(".//item")`: every proper descendant of `root` with tag
`item`, at any depth, in document order (the root itself is excluded by
`ElementPath`'s descendant handling). -/
def Elem.findallItems (root : Elem) : List Elem :=
  iterItemsList root.children

/-- The lookup `item.find(tag)`: the first direct child with the given tag. -/
def Elem.findChild (e : Elem) (t : String) : Option Elem :=
  e.children.find? (fun c => c.tag == t)

/-- Python `str.strip()`: remove leading and trailing whitespace.
Stated on the character list underlying the string so that it reduces by
structural recursion. -/
def pystrip (s : String) : String :=
  ⟨((s.data.dropWhile Char.isWhitespace).reverse.dropWhile Char.isWhitespace).reverse⟩

/-- The test `field is None or not (field.text or "").strip()`: the element is
absent, or its text is absent/empty after trimming whitespace. -/
def missingField : Option Elem → Bool
  | none => true
  | some e => pystrip (e.text.getD "") == ""

/-- The date-parsing attempt for one item: only when the `pubDate` child
is present with non-empty trimmed text is `parsedate_to_datetime` called
on the stripped text; `none` covers the missing case and a raising parse
(swallowed by `except Exception: pass`). -/
def entryDate (pd : String → Option PDate) (it : Elem) : Option PDate :=
  match it.findChild "pubDate" with
  | none => none
  | some e =>
    let txt := pystrip (e.text.getD "")
    if txt == "" then none else pd txt

/-- The update `if newest_date is None or dt > newest_date: newest_date = dt`,
inside `try … except Exception: pass`: comparing a naive with an aware
datetime raises `TypeError`, which the `except` swallows, leaving the
tracked value unchanged. -/
def updNewest (newest : Option PDate) (dt : PDate) : Option PDate :=
  match newest with
  | none => some dt
  | some nd =>
    if dt.aware != nd.aware then some nd
    else if dt.stamp > nd.stamp then some dt else some nd

/-- The per-item loop state of `check_feed`. -/
structure ScanState where
  missing_titles : Nat
  missing_links : Nat
  missing_dates : Nat
  newest_date : Option PDate
  deriving Repr, DecidableEq

/-- One iteration of the `for item in items` loop (lines 50–69). -/
def scanItem (pd : String → Option PDate) (st : ScanState) (it : Elem) : ScanState where
  missing_titles := st.missing_titles + (if missingField (it.findChild "title") then 1 else 0)
  missing_links := st.missing_links + (if missingField (it.findChild "link") then 1 else 0)
  missing_dates := st.missing_dates + (if missingField (it.findChild "pubDate") then 1 else 0)
  newest_date :=
    match entryDate pd it with
    | none => st.newest_date
    | some dt => updNewest st.newest_date dt

/-- The whole `for item in items` loop. -/
def scanItems (pd : String → Option PDate) (items : List Elem) (st : ScanState) : ScanState :=
  items.foldl (scanItem pd) st

/-- The threshold `STALE_DAYS = 30`. -/
def STALE_DAYS : Nat := 30

/-- The threshold `timedelta(days=STALE_DAYS)` in seconds. -/
def staleSeconds : Int := STALE_DAYS * 86400

/-- The warning `f"{missing_titles}/{len(items)} entries missing title"`, emitted
when the count is non-zero. -/
def titleWarning (c n : Nat) : List String :=
  if c ≠ 0 then [toString c ++ "/" ++ toString n ++ " entries missing title"] else []

/-- The error `f"{missing_links}/{len(items)} entries missing link"`, emitted when
the count is non-zero. -/
def linkError (c n : Nat) : List String :=
  if c ≠ 0 then [toString c ++ "/" ++ toString n ++ " entries missing link"] else []

/-- The warning `f"{missing_dates}/{len(items)} entries missing pubDate"`, emitted
when the count is non-zero. -/
def dateWarning (c n : Nat) : List String :=
  if c ≠ 0 then [toString c ++ "/" ++ toString n ++ " entries missing pubDate"] else []

/-- The staleness warning text: `age.days` is the floor of the age in
seconds over 86400, and the date is rendered `%Y-%m-%d`. -/
def staleMsg (now : Int) (nd : PDate) : String :=
  "Stale: newest entry is " ++ toString ((now - nd.stamp).fdiv 86400) ++
    " days old (" ++ nd.ymd ++ ")"

/-- Step 4 of `check_feed` (lines 79–85): with no newest date, nothing
happens; with an aware newest date, `now - newest_date` succeeds and a
stale warning is produced when the age strictly exceeds the threshold;
with a naive newest date the subtraction raises an uncaught `TypeError`
(`none`). -/
def freshness (now : Int) : Option PDate → Option (List String)
  | none => some []
  | some nd =>
    if nd.aware then
      some (if now - nd.stamp > staleSeconds then [staleMsg now nd] else [])
    else none

/-- The result tuple `(ok, warnings, errors)`. -/
structure CheckResult where
  ok : Bool
  warnings : List String
  errors : List String
  deriving Repr, DecidableEq

/-- The checker `check_feed(feed_path)` on the parse outcome of the file.  `none`
models an uncaught exception escaping `check_feed`. -/
def check_feed (pd : String → Option PDate) (now : Int) (doc : Except String Elem) :
    Option CheckResult :=
  match doc with
  | .error e => some ⟨false, [], ["Invalid XML: " ++ e]⟩
  | .ok root =>
    let items := root.findallItems
    if items.isEmpty then some ⟨false, [], ["No <item> entries found"]⟩
    else
      let st := scanItems pd items ⟨0, 0, 0, none⟩
      let warnings := titleWarning st.missing_titles items.length ++
        dateWarning st.missing_dates items.length
      let errors := linkError st.missing_links items.length
      match freshness now st.newest_date with
      | none => none
      | some sw => some ⟨errors.isEmpty, warnings ++ sw, errors⟩

/-- The three status buckets of the driver. -/
inductive Status where
  | OK
  | WARN
  | FAIL
  deriving Repr, DecidableEq

/-- The `if ok and not warnings / elif ok and warnings / else` chain of
`main` (lines 120–128). -/
def classify (r : CheckResult) : Status :=
  if r.ok && r.warnings.isEmpty then .OK
  else if r.ok && !r.warnings.isEmpty then .WARN
  else .FAIL

/-- The driver's running counters. -/
structure Summary where
  total : Nat
  healthy : Nat
  warn_count : Nat
  error_count : Nat
  deriving Repr, DecidableEq

/-- One driver loop iteration: increment the bucket of the classified
result. -/
def tallyStep (s : Summary) (r : CheckResult) : Summary :=
  match classify r with
  | .OK => { s with healthy := s.healthy + 1 }
  | .WARN => { s with warn_count := s.warn_count + 1 }
  | .FAIL => { s with error_count := s.error_count + 1 }

/-- The driver's accumulation over all results (`total = len(feeds)` is
computed before the loop). -/
def tally (total : Nat) (rs : List CheckResult) : Summary :=
  rs.foldl tallyStep ⟨total, 0, 0, 0⟩

/-- Run `check_feed` on each file in order; an uncaught exception from
one file (`none`) aborts the whole run with the remaining files
unprocessed. -/
def processFeeds (pd : String → Option PDate) (now : Int) :
    List (Except String Elem) → Option (List CheckResult)
  | [] => some []
  | d :: ds =>
    match check_feed pd now d with
    | none => none
    | some r => (processFeeds pd now ds).map (fun rs => r :: rs)

/-- Outcome of a `main` invocation: an early `sys.exit` from a guard
path, a crash from an uncaught exception, or a completed run with its
summary and exit code. -/
inductive RunOutcome where
  | earlyExit (code : Nat)
  | crashed
  | finished (s : Summary) (code : Nat)
  deriving Repr, DecidableEq

/-- The driver `main()`, on the abstract inputs it consumes: whether `FEEDS_DIR`
exists and the sorted parse outcomes of the matched `feed_*.xml` files.
The final exit is `sys.exit(1 if error_count else 0)`. -/
def main (pd : String → Option PDate) (now : Int) (feedsDirExists : Bool)
    (feeds : List (Except String Elem)) : RunOutcome :=
  if !feedsDirExists then .earlyExit 1
  else if feeds.isEmpty then .earlyExit 1
  else
    match processFeeds pd now feeds with
    | none => .crashed
    | some rs =>
      let s := tally feeds.length rs
      .finished s (if s.error_count ≠ 0 then 1 else 0)

/-! ### Observers of the per-item scan

These definitions restate the quantities the scan loop accumulates as
direct functions of the item list, to be related to `scanItems` by
`scanItems_spec`. -/

/-- How many items of the list are missing the given field (element
absent, or text empty after trimming). -/
def countMissing (f : String) (items : List Elem) : Nat :=
  (items.filter (fun it => missingField (it.findChild f))).length

/-- The successfully parsed publication dates of the items, in item
order. -/
def parsedDates (pd : String → Option PDate) (items : List Elem) : List PDate :=
  items.filterMap (entryDate pd)

/-- The newest-date fold, one `updNewest` step per parsed date. -/
def foldNewest : Option PDate → List PDate → Option PDate
  | acc, [] => acc
  | acc, d :: ds => foldNewest (updNewest acc d) ds

/-- The newest date tracked by the scan, starting from the initial
state. -/
def newestOf (pd : String → Option PDate) (items : List Elem) : Option PDate :=
  (scanItems pd items ⟨0, 0, 0, none⟩).newest_date

/-- The field warnings (missing title, then missing pubDate) computed by
the scan, starting from the initial state. -/
def fieldWarnings (pd : String → Option PDate) (items : List Elem) : List String :=
  titleWarning (scanItems pd items ⟨0, 0, 0, none⟩).missing_titles items.length ++
    dateWarning (scanItems pd items ⟨0, 0, 0, none⟩).missing_dates items.length

theorem countMissing_cons (f : String) (it : Elem) (its : List Elem) :
    countMissing f (it :: its) =
      (if missingField (it.findChild f) then 1 else 0) + countMissing f its := by
  simp only [countMissing, List.filter_cons]
  split <;> simp [Nat.add_comm]

/-- The scan loop's final state, in terms of the direct observers. -/
theorem scanItems_spec (pd : String → Option PDate) (items : List Elem) (st : ScanState) :
    scanItems pd items st =
      ⟨st.missing_titles + countMissing "title" items,
       st.missing_links + countMissing "link" items,
       st.missing_dates + countMissing "pubDate" items,
       foldNewest st.newest_date (parsedDates pd items)⟩ := by
  induction items generalizing st with
  | nil => simp [scanItems, countMissing, parsedDates, foldNewest]
  | cons it its ih =>
    have hstep : scanItems pd (it :: its) st = scanItems pd its (scanItem pd st it) := rfl
    rw [hstep, ih]
    simp only [ScanState.mk.injEq]
    refine ⟨?_, ?_, ?_, ?_⟩
    · rw [countMissing_cons]; simp [scanItem, Nat.add_assoc]
    · rw [countMissing_cons]; simp [scanItem, Nat.add_assoc]
    · rw [countMissing_cons]; simp [scanItem, Nat.add_assoc]
    · cases h : entryDate pd it <;>
        simp [scanItem, parsedDates, List.filterMap_cons, h, foldNewest]

/-- When every date of the list (and the accumulator) carries the same
awareness, no comparison step raises, and the fold computes a maximum:
its result is the accumulator or a list element, at least as recent as
all of them. -/
theorem foldNewest_some_max (a : Bool) :
    ∀ (ds : List PDate) (x : PDate), (∀ d ∈ ds, d.aware = a) → x.aware = a →
      ∃ m, foldNewest (some x) ds = some m ∧ (m = x ∨ m ∈ ds) ∧ m.aware = a ∧
        x.stamp ≤ m.stamp ∧ ∀ d ∈ ds, d.stamp ≤ m.stamp := by
  intro ds
  induction ds with
  | nil =>
    intro x _ hx
    exact ⟨x, rfl, Or.inl rfl, hx, le_refl _, by simp⟩
  | cons d ds ih =>
    intro x hds hx
    have hd : d.aware = a := hds d (List.mem_cons_self ..)
    have hds' : ∀ e ∈ ds, e.aware = a := fun e he => hds e (List.mem_cons_of_mem _ he)
    have hba : (d.aware != x.aware) = false := by rw [hd, hx]; simp
    by_cases hgt : d.stamp > x.stamp
    · have hupd : updNewest (some x) d = some d := by simp [updNewest, hba, hgt]
      obtain ⟨m, h1, h2, h3, h4, h5⟩ := ih d hds' hd
      refine ⟨m, ?_, ?_, h3, le_trans (le_of_lt hgt) h4, ?_⟩
      · show foldNewest (updNewest (some x) d) ds = some m
        rw [hupd]; exact h1
      · rcases h2 with h2 | h2
        · exact Or.inr (h2 ▸ List.mem_cons_self ..)
        · exact Or.inr (List.mem_cons_of_mem _ h2)
      · intro e he
        rcases List.mem_cons.mp he with rfl | he
        · exact h4
        · exact h5 e he
    · have hupd : updNewest (some x) d = some x := by simp [updNewest, hba, hgt]
      obtain ⟨m, h1, h2, h3, h4, h5⟩ := ih x hds' hx
      refine ⟨m, ?_, ?_, h3, h4, ?_⟩
      · show foldNewest (updNewest (some x) d) ds = some m
        rw [hupd]; exact h1
      · rcases h2 with h2 | h2
        · exact Or.inl h2
        · exact Or.inr (List.mem_cons_of_mem _ h2)
      · intro e he
        rcases List.mem_cons.mp he with rfl | he
        · exact le_trans (le_of_not_lt hgt) h4
        · exact h5 e he

/-- The freshness step never raises on `none`, and when it returns, the
stale-warning list has at most one element. -/
theorem freshness_some_length (now : Int) (o : Option PDate) (sw : List String)
    (h : freshness now o = some sw) : sw.length ≤ 1 := by
  cases o with
  | none =>
    have hsw : sw = [] := by simpa [freshness] using h.symm
    simp [hsw]
  | some nd =>
    simp only [freshness] at h
    split at h
    · simp only [Option.some.injEq] at h
      rw [← h]
      split <;> simp
    · exact absurd h (by simp)

theorem classify_ok_iff (r : CheckResult) :
    classify r = Status.OK ↔ r.ok = true ∧ r.warnings = [] := by
  cases hok : r.ok <;> cases hw : r.warnings.isEmpty <;>
    simp_all [classify, List.isEmpty_iff]

theorem classify_warn_iff (r : CheckResult) :
    classify r = Status.WARN ↔ r.ok = true ∧ r.warnings ≠ [] := by
  cases hok : r.ok <;> cases hw : r.warnings.isEmpty <;>
    simp_all [classify, List.isEmpty_iff]

theorem classify_fail_iff (r : CheckResult) :
    classify r = Status.FAIL ↔ r.ok = false := by
  cases hok : r.ok <;> cases hw : r.warnings.isEmpty <;>
    simp_all [classify, List.isEmpty_iff]

theorem tallyStep_total (s : Summary) (r : CheckResult) :
    (tallyStep s r).total = s.total := by
  cases h : classify r <;> simp [tallyStep, h]

theorem tallyStep_sum (s : Summary) (r : CheckResult) :
    (tallyStep s r).healthy + (tallyStep s r).warn_count + (tallyStep s r).error_count =
      s.healthy + s.warn_count + s.error_count + 1 := by
  cases h : classify r <;> simp [tallyStep, h] <;> omega

theorem tallyStep_error_count (s : Summary) (r : CheckResult) :
    (tallyStep s r).error_count = s.error_count + (if r.ok then 0 else 1) := by
  cases hok : r.ok
  · have hf : classify r = Status.FAIL := (classify_fail_iff r).mpr hok
    simp [tallyStep, hf]
  · cases h : classify r
    · simp [tallyStep, h, hok]
    · simp [tallyStep, h, hok]
    · exact absurd ((classify_fail_iff r).mp h) (by simp [hok])

theorem foldl_tally_total (rs : List CheckResult) (s : Summary) :
    (rs.foldl tallyStep s).total = s.total := by
  induction rs generalizing s with
  | nil => rfl
  | cons r rs ih =>
    show (rs.foldl tallyStep (tallyStep s r)).total = s.total
    rw [ih (tallyStep s r), tallyStep_total]

theorem foldl_tally_sum (rs : List CheckResult) (s : Summary) :
    (rs.foldl tallyStep s).healthy + (rs.foldl tallyStep s).warn_count +
        (rs.foldl tallyStep s).error_count =
      s.healthy + s.warn_count + s.error_count + rs.length := by
  induction rs generalizing s with
  | nil => rfl
  | cons r rs ih =>
    have hstep : List.foldl tallyStep s (r :: rs) = List.foldl tallyStep (tallyStep s r) rs := rfl
    rw [hstep, ih (tallyStep s r), tallyStep_sum]
    simp [List.length_cons]
    omega

theorem foldl_tally_error_count (rs : List CheckResult) (s : Summary) :
    (rs.foldl tallyStep s).error_count =
      s.error_count + rs.countP (fun r => !r.ok) := by
  induction rs generalizing s with
  | nil => rfl
  | cons r rs ih =>
    have hstep : List.foldl tallyStep s (r :: rs) = List.foldl tallyStep (tallyStep s r) rs := rfl
    rw [hstep, ih (tallyStep s r), tallyStep_error_count, List.countP_cons]
    cases hok : r.ok
    all_goals simp [hok]
    all_goals omega

theorem processFeeds_length (pd : String → Option PDate) (now : Int) :
    ∀ (ds : List (Except String Elem)) (rs : List CheckResult),
      processFeeds pd now ds = some rs → rs.length = ds.length := by
  intro ds
  induction ds with
  | nil =>
    intro rs h
    simp only [processFeeds, Option.some.injEq] at h
    simp [← h]
  | cons d ds ih =>
    intro rs h
    simp only [processFeeds] at h
    cases hc : check_feed pd now d with
    | none => rw [hc] at h; exact absurd h (by simp)
    | some r =>
      rw [hc] at h
      cases hp : processFeeds pd now ds with
      | none => rw [hp] at h; exact absurd h (by simp)
      | some rs₀ =>
        rw [hp] at h
        have h' : r :: rs₀ = rs := by simpa using h
        rw [← h']
        simp [ih _ hp]

/-- The scan over the items, started from the initial state, in terms of
the direct observers. -/
theorem scan_counts (pd : String → Option PDate) (items : List Elem) :
    (scanItems pd items ⟨0, 0, 0, none⟩).missing_titles = countMissing "title" items ∧
    (scanItems pd items ⟨0, 0, 0, none⟩).missing_links = countMissing "link" items ∧
    (scanItems pd items ⟨0, 0, 0, none⟩).missing_dates = countMissing "pubDate" items ∧
    newestOf pd items = foldNewest none (parsedDates pd items) := by
  unfold newestOf
  rw [scanItems_spec]
  simp

/-- Inversion of `check_feed` on a document that parsed and has at least
one item: the result components in terms of the scan observers. -/
theorem check_feed_ok_inv (pd : String → Option PDate) (now : Int) (root : Elem)
    (r : CheckResult) (hne : root.findallItems.isEmpty = false)
    (h : check_feed pd now (Except.ok root) = some r) :
    ∃ sw, freshness now (newestOf pd root.findallItems) = some sw ∧
      r.ok = (linkError (countMissing "link" root.findallItems)
        root.findallItems.length).isEmpty ∧
      r.warnings = fieldWarnings pd root.findallItems ++ sw ∧
      r.errors = linkError (countMissing "link" root.findallItems)
        root.findallItems.length := by
  have hlink : (scanItems pd root.findallItems ⟨0, 0, 0, none⟩).missing_links =
      countMissing "link" root.findallItems := (scan_counts pd root.findallItems).2.1
  simp only [check_feed] at h
  rw [hne] at h
  simp only [Bool.false_eq_true, if_false] at h
  cases hf : freshness now ((scanItems pd root.findallItems ⟨0, 0, 0, none⟩).newest_date) with
  | none =>
    rw [hf] at h
    exact absurd h (by simp)
  | some sw =>
    rw [hf] at h
    simp only [Option.some.injEq] at h
    refine ⟨sw, hf, ?_, ?_, ?_⟩
    · rw [← h, ← hlink]
    · rw [← h]
      rfl
    · rw [← h, ← hlink]

/-- Inversion of a completed `main` run. -/
theorem main_finished (pd : String → Option PDate) (now : Int) (dirE : Bool)
    (feeds : List (Except String Elem)) (s : Summary) (code : Nat)
    (h : main pd now dirE feeds = RunOutcome.finished s code) :
    ∃ rs, processFeeds pd now feeds = some rs ∧ s = tally feeds.length rs ∧
      code = (if s.error_count ≠ 0 then 1 else 0) := by
  unfold main at h
  split at h
  · exact absurd h (by simp)
  · split at h
    · exact absurd h (by simp)
    · cases hp : processFeeds pd now feeds <;> rw [hp] at h
      · exact absurd h (by simp)
      · simp only [RunOutcome.finished.injEq] at h
        exact ⟨_, rfl, h.1.symm, by rw [← h.1]; exact h.2.symm⟩

/-! ### Concrete feeds and date parsers for counterexamples and witnesses -/

/-- An element with text content and no children. -/
def leaf (t : String) (x : String) : Elem :=
  Elem.mk t (some x) []

/-- A feed skeleton: `rss` root, one `channel`, the given items. -/
def rssDoc (its : List Elem) : Elem :=
  Elem.mk "rss" none [Elem.mk "channel" none its]

/-- An item with title, link, and the given pubDate text. -/
def itemFull (d : String) : Elem :=
  Elem.mk "item" none [leaf "title" "t", leaf "link" "l", leaf "pubDate" d]

/-- A date parser recognising nothing: every call raises. -/
def pdNone : String → Option PDate :=
  fun _ => none

/-- A concrete model of `email.utils.parsedate_to_datetime` on the date
strings used below.  Per the Python documentation, an RFC-2822 date with
no timezone, or with `-0000`, parses to a naive datetime
(`aware = false`); a date with an explicit offset parses to an aware
one.  Timestamps are seconds since the epoch (wall-clock seconds for
naive values); every other string raises (`none`). -/
def parsedateEx : String → Option PDate := fun s =>
  if s = "Mon, 20 Nov 2023 10:00:00" then some ⟨1700474400, false, "2023-11-20"⟩
  else if s = "Thu, 01 Jan 2026 00:00:00 -0000" then some ⟨1767225600, false, "2026-01-01"⟩
  else if s = "Wed, 01 Oct 2025 00:00:00 +0000" then some ⟨1759276800, true, "2025-10-01"⟩
  else if s = "Thu, 28 Aug 2025 00:00:00 +0000" then some ⟨1756339200, true, "2025-08-28"⟩
  else if s = "Thu, 02 Oct 2025 00:00:00 +0000" then some ⟨1759363200, true, "2025-10-02"⟩
  else none

/-- A fixed `datetime.now(timezone.utc)`: 2025-10-12 00:00:00 UTC. -/
def now0 : Int := 1760227200

/-- A healthy feed: one full item, aware pubDate 11 days before `now0`. -/
def feedGood : Elem := rssDoc [itemFull "Wed, 01 Oct 2025 00:00:00 +0000"]

/-- A feed whose only pubDate carries no timezone: it parses to a naive
datetime. -/
def feedNaive : Elem := rssDoc [itemFull "Mon, 20 Nov 2023 10:00:00"]

/-- A feed whose only pubDate carries the `-0000` pseudo-zone: it parses
to a naive datetime. -/
def feedNoTz : Elem := rssDoc [itemFull "Thu, 01 Jan 2026 00:00:00 -0000"]

/-- A feed whose newest (aware) pubDate is exactly 45 days before
`now0`. -/
def feed45 : Elem := rssDoc [itemFull "Thu, 28 Aug 2025 00:00:00 +0000"]

/-- A feed whose newest (aware) pubDate is exactly 10 days before
`now0`. -/
def feed10 : Elem := rssDoc [itemFull "Thu, 02 Oct 2025 00:00:00 +0000"]

/-- A feed that parses but has no items. -/
def feedNoItems : Elem := rssDoc []

/-- A feed with a naive pubDate first and a more recent aware pubDate
second. -/
def feedMix : Elem :=
  rssDoc [itemFull "Mon, 20 Nov 2023 10:00:00", itemFull "Wed, 01 Oct 2025 00:00:00 +0000"]

/-- A feed with two aware pubDates, the second more recent. -/
def feedUnif : Elem :=
  rssDoc [itemFull "Wed, 01 Oct 2025 00:00:00 +0000", itemFull "Thu, 02 Oct 2025 00:00:00 +0000"]

/-- A feed exercising the missing-field tallies: first item with
whitespace-only title, no link, unparseable pubDate text; second item
with link only. -/
def feedFields : Elem :=
  rssDoc [Elem.mk "item" none [leaf "title" "  ", leaf "pubDate" "x"],
    Elem.mk "item" none [leaf "link" "l"]]

/-! ### The claims -/

/-- C1: whenever `check_feed` returns a result tuple, its `ok` flag is
true if and only if the returned error list is empty — never true with
non-empty errors, never false with empty errors. -/
theorem c1_ok_iff_errors_empty (pd : String → Option PDate) (now : Int)
    (doc : Except String Elem) (r : CheckResult)
    (h : check_feed pd now doc = some r) : r.ok = true ↔ r.errors = [] := by
  cases doc with
  | error e =>
    have hr : (⟨false, [], ["Invalid XML: " ++ e]⟩ : CheckResult) = r := by
      simpa [check_feed] using h
    rw [← hr]
    simp
  | ok root =>
    cases hne : root.findallItems.isEmpty with
    | true =>
      have hr : (⟨false, [], ["No <item> entries found"]⟩ : CheckResult) = r := by
        simpa [check_feed, hne] using h
      rw [← hr]
      simp
    | false =>
      obtain ⟨sw, hf, hok, hw, herr⟩ := check_feed_ok_inv pd now root r hne h
      rw [hok, herr]
      exact List.isEmpty_iff

/-- C1 witness: the conclusion at a concrete healthy feed. -/
theorem c1_witness :
    check_feed parsedateEx now0 (Except.ok feedGood) = some ⟨true, [], []⟩ ∧
      ((⟨true, [], []⟩ : CheckResult).ok = true ↔ (⟨true, [], []⟩ : CheckResult).errors = []) :=
  ⟨by decide, c1_ok_iff_errors_empty parsedateEx now0 (Except.ok feedGood) ⟨true, [], []⟩
    (by decide)⟩

/-- C2 (amended): a feed that parses but contains no item element at any
depth yields `ok = false`, no warnings, and the single error
`"No <item> entries found"` (not `"No entries found"` as the claim
words it), and no further check runs. -/
theorem c2_no_items_error (pd : String → Option PDate) (now : Int) (root : Elem)
    (h : root.findallItems.isEmpty = true) :
    check_feed pd now (Except.ok root) =
      some ⟨false, [], ["No <item> entries found"]⟩ := by
  simp [check_feed, h]

/-- C2 counterexample: on a concrete feed with zero items the single
error text produced by the code differs from the text the claim
states. -/
theorem c2_counterexample :
    check_feed pdNone 0 (Except.ok feedNoItems) =
        some ⟨false, [], ["No <item> entries found"]⟩ ∧
      "No <item> entries found" ≠ "No entries found" := by
  constructor
  · decide
  · decide

/-- C2 witness: the amended statement at the concrete empty feed. -/
theorem c2_witness :
    feedNoItems.findallItems.isEmpty = true ∧
      check_feed pdNone 0 (Except.ok feedNoItems) =
        some ⟨false, [], ["No <item> entries found"]⟩ :=
  ⟨by decide, c2_no_items_error pdNone 0 feedNoItems (by decide)⟩

/-- C3 (code bug): a parse failure is indeed converted into the file's
own result tuple with the single `Invalid XML` error (first conjunct),
but checking a file is not exception-safe: a feed whose only pubDate
parses to a naive datetime makes the freshness subtraction raise an
uncaught `TypeError` inside `check_feed` (second conjunct), and that
exception terminates the whole run before later files are processed,
even though the later file on its own would check fine (remaining
conjuncts). -/
theorem c3_per_file_failure_escapes :
    check_feed pdNone 0 (Except.error "mismatched tag: line 5, column 2") =
        some ⟨false, [], ["Invalid XML: mismatched tag: line 5, column 2"]⟩ ∧
      check_feed parsedateEx now0 (Except.ok feedNaive) = none ∧
      check_feed parsedateEx now0 (Except.ok feedGood) = some ⟨true, [], []⟩ ∧
      main parsedateEx now0 true [Except.ok feedNaive, Except.ok feedGood] =
        RunOutcome.crashed := by
  refine ⟨?_, ?_, ?_, ?_⟩
  · decide
  · decide
  · decide
  · decide

/-- C4 (code bug): a newest publication date is determined for this feed
(its single pubDate parses, carrying the unusable `-0000` zone, hence
naive), yet the freshness comparison does not have both operands in a
comparable timezone-aware representation: the age computation raises,
modelled by `check_feed` returning `none` instead of a result. -/
theorem c4_naive_newest_crashes :
    newestOf parsedateEx feedNoTz.findallItems =
        some ⟨1767225600, false, "2026-01-01"⟩ ∧
      freshness now0 (newestOf parsedateEx feedNoTz.findallItems) = none ∧
      check_feed parsedateEx now0 (Except.ok feedNoTz) = none := by
  refine ⟨?_, ?_, ?_⟩
  · decide
  · decide
  · decide

/-- C5 counterexample: in a feed whose first pubDate parses naive and
whose second parses aware with a larger timestamp, the tracked newest
date is the first (the naive-versus-aware comparison raises and is
swallowed, skipping the update), so it is not the maximum over all
successfully parsed dates. -/
theorem c5_counterexample :
    newestOf parsedateEx feedMix.findallItems =
        some ⟨1700474400, false, "2023-11-20"⟩ ∧
      (⟨1759276800, true, "2025-10-01"⟩ : PDate) ∈
        parsedDates parsedateEx feedMix.findallItems ∧
      ¬ ((1759276800 : Int) ≤ 1700474400) := by
  refine ⟨?_, ?_, ?_⟩
  · decide
  · decide
  · decide

/-- C5 (amended): when all successfully parsed publication dates share
one timezone-awareness, the tracked newest date is their maximum (and it
is `none` exactly when no date parsed); a parsed date whose
naive-versus-aware comparison with the tracked value raises is skipped
with the tracked value unchanged; and an entry whose present, non-empty
pubDate text fails to parse is silently ignored — it changes neither the
missing-pubDate tally nor the tracked newest date, so it contributes
nothing to freshness and produces no error or warning. -/
theorem c5_newest_max :
    (∀ (pd : String → Option PDate) (items : List Elem) (a : Bool),
        (∀ d ∈ parsedDates pd items, d.aware = a) →
        (newestOf pd items = none ↔ parsedDates pd items = []) ∧
        ∀ m, newestOf pd items = some m →
          m ∈ parsedDates pd items ∧ ∀ d ∈ parsedDates pd items, d.stamp ≤ m.stamp) ∧
    (∀ (nd dt : PDate), dt.aware ≠ nd.aware → updNewest (some nd) dt = some nd) ∧
    (∀ (pd : String → Option PDate) (st : ScanState) (it : Elem) (e : Elem),
        it.findChild "pubDate" = some e →
        (pystrip (e.text.getD "") == "") = false →
        pd (pystrip (e.text.getD "")) = none →
        (scanItem pd st it).missing_dates = st.missing_dates ∧
        (scanItem pd st it).newest_date = st.newest_date) := by
  refine ⟨?_, ?_, ?_⟩
  · intro pd items a hall
    have hnew : newestOf pd items = foldNewest none (parsedDates pd items) :=
      (scan_counts pd items).2.2.2
    cases hds : parsedDates pd items with
    | nil =>
      rw [hds] at hnew
      constructor
      · simp [hnew, foldNewest]
      · intro m hm
        rw [hnew] at hm
        exact absurd hm (by simp [foldNewest])
    | cons p ps =>
      rw [hds] at hall
      have hp : p.aware = a := hall p (List.mem_cons_self ..)
      have hps : ∀ d ∈ ps, d.aware = a := fun d hd => hall d (List.mem_cons_of_mem _ hd)
      obtain ⟨m, hm, hmem, hma, hpm, hall2⟩ := foldNewest_some_max a ps p hps hp
      have hfold : foldNewest none (p :: ps) = some m := by
        show foldNewest (updNewest none p) ps = some m
        exact hm
      rw [hds, hfold] at hnew
      constructor
      · simp [hnew, hds]
      · intro m2 hm2
        rw [hnew] at hm2
        obtain rfl : m = m2 := by simpa using hm2
        refine ⟨?_, ?_⟩
        · rcases hmem with rfl | hmm
          · exact List.mem_cons_self ..
          · exact List.mem_cons_of_mem _ hmm
        · intro d hd
          rcases List.mem_cons.mp hd with rfl | hdm
          · exact hpm
          · exact hall2 d hdm
  · intro nd dt hne
    simp only [updNewest]
    rw [if_pos (bne_iff_ne.mpr hne)]
  · intro pd st it e h1 h2 h3
    constructor
    · simp [scanItem, missingField, h1, h2]
    · simp [scanItem, entryDate, h1, h2, h3]

/-- C5 witness: on a feed with two aware dates, the tracked newest date
is the larger, and on a scan step with an unparseable pubDate the date
state is untouched. -/
theorem c5_witness :
    newestOf parsedateEx feedUnif.findallItems =
        some ⟨1759363200, true, "2025-10-02"⟩ ∧
      (1759276800 : Int) ≤ 1759363200 ∧
      (scanItem pdNone ⟨1, 2, 3, none⟩ (Elem.mk "item" none [leaf "pubDate" "x"])).missing_dates = 3 ∧
      (scanItem pdNone ⟨1, 2, 3, none⟩ (Elem.mk "item" none [leaf "pubDate" "x"])).newest_date = none := by
  have h1 := (c5_newest_max.1 parsedateEx feedUnif.findallItems true (by decide)).2
    ⟨1759363200, true, "2025-10-02"⟩ (by decide)
  have h2 := c5_newest_max.2.2 pdNone ⟨1, 2, 3, none⟩
    (Elem.mk "item" none [leaf "pubDate" "x"]) (leaf "pubDate" "x") (by rfl) (by decide)
    (by decide)
  exact ⟨by decide, h1.2 ⟨1759276800, true, "2025-10-01"⟩ (by decide), h2.1, h2.2⟩

/-- C6: whenever `check_feed` returns a result, the staleness warning
`staleMsg` (text "Stale: newest entry is N days old (YYYY-MM-DD)", with
N the age in whole days and the date rendered `%Y-%m-%d`) is appended
after the field warnings exactly when a newest date was determined and
its age relative to now strictly exceeds 30 days; with no newest date,
or with age at most 30 days, the warnings are the field warnings
alone. -/
theorem c6_stale_warning_iff (pd : String → Option PDate) (now : Int) (root : Elem)
    (r : CheckResult) (h : check_feed pd now (Except.ok root) = some r) :
    (∀ nd, newestOf pd root.findallItems = some nd →
        (now - nd.stamp > staleSeconds →
          r.warnings = fieldWarnings pd root.findallItems ++ [staleMsg now nd]) ∧
        (now - nd.stamp ≤ staleSeconds →
          r.warnings = fieldWarnings pd root.findallItems)) ∧
    (newestOf pd root.findallItems = none →
        r.warnings = fieldWarnings pd root.findallItems) := by
  cases hne : root.findallItems.isEmpty with
  | true =>
    have hitems : root.findallItems = [] := List.isEmpty_iff.mp hne
    have hr : (⟨false, [], ["No <item> entries found"]⟩ : CheckResult) = r := by
      simpa [check_feed, hne] using h
    constructor
    · intro nd hnd
      rw [hitems] at hnd
      exact absurd hnd (by simp [newestOf, scanItems])
    · intro _
      rw [← hr, hitems]
      rfl
  | false =>
    obtain ⟨sw, hf, hok, hw, herr⟩ := check_feed_ok_inv pd now root r hne h
    constructor
    · intro nd hnd
      rw [hnd] at hf
      simp only [freshness] at hf
      split at hf
      · simp only [Option.some.injEq] at hf
        constructor
        · intro hage
          rw [hw, ← hf, if_pos hage]
        · intro hage
          rw [hw, ← hf, if_neg (not_lt.mpr hage)]
          simp
      · exact absurd hf (by simp)
    · intro hnd
      rw [hnd] at hf
      have hsw : sw = [] := by simpa [freshness] using hf.symm
      rw [hw, hsw]
      simp

/-- C6 witness: a newest date exactly 45 days old yields exactly the one
stale warning (45 whole days, date rendered) with `ok` still true, and a
newest date 10 days old yields no warning at all. -/
theorem c6_witness :
    check_feed parsedateEx now0 (Except.ok feed45) =
        some ⟨true, ["Stale: newest entry is 45 days old (2025-08-28)"], []⟩ ∧
      (⟨true, ["Stale: newest entry is 45 days old (2025-08-28)"], []⟩ : CheckResult).warnings =
        fieldWarnings parsedateEx feed45.findallItems ++
          [staleMsg now0 ⟨1756339200, true, "2025-08-28"⟩] ∧
      check_feed parsedateEx now0 (Except.ok feed10) = some ⟨true, [], []⟩ := by
  refine ⟨by decide, ?_, by decide⟩
  exact ((c6_stale_warning_iff parsedateEx now0 feed45 _ (by decide)).1
    ⟨1756339200, true, "2025-08-28"⟩ (by decide)).1 (by decide)

/-- C7: whenever `check_feed` returns a result on a feed with items, a
field is missing exactly per `missingField` (element absent or text
empty after stripping, via `countMissing`); the error list is exactly
the missing-link finding "missing/total entries missing link" when any
link is missing and empty otherwise, so `ok` holds iff no link is
missing; missing titles and missing pubDates surface as warnings of the
same message shape and never enter the error list. -/
theorem c7_field_findings (pd : String → Option PDate) (now : Int) (root : Elem)
    (r : CheckResult) (hne : root.findallItems.isEmpty = false)
    (h : check_feed pd now (Except.ok root) = some r) :
    r.errors = linkError (countMissing "link" root.findallItems) root.findallItems.length ∧
    (r.ok = true ↔ countMissing "link" root.findallItems = 0) ∧
    (countMissing "title" root.findallItems ≠ 0 →
      (toString (countMissing "title" root.findallItems) ++ "/" ++
        toString root.findallItems.length ++ " entries missing title") ∈ r.warnings) ∧
    (countMissing "pubDate" root.findallItems ≠ 0 →
      (toString (countMissing "pubDate" root.findallItems) ++ "/" ++
        toString root.findallItems.length ++ " entries missing pubDate") ∈ r.warnings) := by
  obtain ⟨sw, hf, hok, hw, herr⟩ := check_feed_ok_inv pd now root r hne h
  refine ⟨herr, ?_, ?_, ?_⟩
  · rw [hok]
    unfold linkError
    by_cases hc : countMissing "link" root.findallItems = 0
    · simp [hc]
    · simp [hc]
  · intro hc
    rw [hw]
    unfold fieldWarnings
    rw [(scan_counts pd root.findallItems).1]
    unfold titleWarning
    rw [if_pos hc]
    simp [List.mem_append]
  · intro hc
    rw [hw]
    unfold fieldWarnings
    rw [(scan_counts pd root.findallItems).2.2.1]
    unfold dateWarning
    rw [if_pos hc]
    simp [List.mem_append]

/-- C7 witness: the conclusions at a concrete feed with two items, both
missing the title, one missing the link, one missing the pubDate. -/
theorem c7_witness :
    check_feed pdNone 0 (Except.ok feedFields) =
        some ⟨false, ["2/2 entries missing title", "1/2 entries missing pubDate"],
          ["1/2 entries missing link"]⟩ ∧
      ((⟨false, ["2/2 entries missing title", "1/2 entries missing pubDate"],
          ["1/2 entries missing link"]⟩ : CheckResult).ok = true ↔
        countMissing "link" feedFields.findallItems = 0) ∧
      ("2/2 entries missing title" ∈
        (⟨false, ["2/2 entries missing title", "1/2 entries missing pubDate"],
          ["1/2 entries missing link"]⟩ : CheckResult).warnings) := by
  have happ := c7_field_findings pdNone 0 feedFields
    ⟨false, ["2/2 entries missing title", "1/2 entries missing pubDate"],
      ["1/2 entries missing link"]⟩ (by decide) (by decide)
  refine ⟨by decide, happ.2.1, ?_⟩
  have hmem := happ.2.2.1 (by decide)
  exact hmem

/-- C8: in every completed driver run the three bucket counts sum to the
number of matched feed files (with `total` recorded as that number), and
classification is an exact three-way partition: OK iff ok with no
warnings, WARN iff ok with warnings, FAIL iff not ok. -/
theorem c8_bucket_partition :
    (∀ (pd : String → Option PDate) (now : Int) (dirE : Bool)
        (feeds : List (Except String Elem)) (s : Summary) (code : Nat),
        main pd now dirE feeds = RunOutcome.finished s code →
        s.total = feeds.length ∧
          s.healthy + s.warn_count + s.error_count = feeds.length) ∧
    (∀ r : CheckResult,
        (classify r = Status.OK ↔ r.ok = true ∧ r.warnings = []) ∧
        (classify r = Status.WARN ↔ r.ok = true ∧ r.warnings ≠ []) ∧
        (classify r = Status.FAIL ↔ r.ok = false)) := by
  constructor
  · intro pd now dirE feeds s code h
    obtain ⟨rs, hp, hs, hcode⟩ := main_finished pd now dirE feeds s code h
    have hlen := processFeeds_length pd now feeds rs hp
    subst hs
    unfold tally
    refine ⟨foldl_tally_total rs ⟨feeds.length, 0, 0, 0⟩, ?_⟩
    rw [foldl_tally_sum]
    simp [hlen]
  · intro r
    exact ⟨classify_ok_iff r, classify_warn_iff r, classify_fail_iff r⟩

/-- C8 witness: a concrete two-file run (one healthy, one failing) whose
buckets sum to two. -/
theorem c8_witness :
    main parsedateEx now0 true [Except.ok feedGood, Except.ok feedNoItems] =
        RunOutcome.finished ⟨2, 1, 0, 1⟩ 1 ∧
      (⟨2, 1, 0, 1⟩ : Summary).total = 2 ∧
      (⟨2, 1, 0, 1⟩ : Summary).healthy + (⟨2, 1, 0, 1⟩ : Summary).warn_count +
        (⟨2, 1, 0, 1⟩ : Summary).error_count = 2 := by
  have happ := c8_bucket_partition.1 parsedateEx now0 true
    [Except.ok feedGood, Except.ok feedNoItems] ⟨2, 1, 0, 1⟩ 1 (by decide)
  exact ⟨by decide, happ.1, happ.2⟩

/-- C9: both guard paths (feeds directory missing; no matching files)
exit with status 1 before any feed is checked, and a completed run exits
with status 0 exactly when the error bucket is empty — equivalently,
when every checked feed returned `ok = true` — even if warnings
exist. -/
theorem c9_exit_code :
    (∀ (pd : String → Option PDate) (now : Int) (feeds : List (Except String Elem)),
        main pd now false feeds = RunOutcome.earlyExit 1) ∧
    (∀ (pd : String → Option PDate) (now : Int),
        main pd now true [] = RunOutcome.earlyExit 1) ∧
    (∀ (pd : String → Option PDate) (now : Int) (dirE : Bool)
        (feeds : List (Except String Elem)) (s : Summary) (code : Nat),
        main pd now dirE feeds = RunOutcome.finished s code →
        (code = 0 ↔ s.error_count = 0) ∧
        ∃ rs, processFeeds pd now feeds = some rs ∧
          (s.error_count = 0 ↔ ∀ r ∈ rs, r.ok = true)) := by
  refine ⟨fun pd now feeds => rfl, fun pd now => rfl, ?_⟩
  intro pd now dirE feeds s code h
  obtain ⟨rs, hp, hs, hcode⟩ := main_finished pd now dirE feeds s code h
  constructor
  · rw [hcode]
    by_cases he : s.error_count = 0
    · simp [he]
    · simp [he]
  · refine ⟨rs, hp, ?_⟩
    subst hs
    unfold tally
    rw [foldl_tally_error_count]
    simp [List.countP_eq_zero]

/-- C9 witness: a concrete completed run with one warning and no error
exits 0. -/
theorem c9_witness :
    main parsedateEx now0 true [Except.ok feedGood, Except.ok feed45] =
        RunOutcome.finished ⟨2, 1, 1, 0⟩ 0 ∧
      ((0 : Nat) = 0 ↔ (⟨2, 1, 1, 0⟩ : Summary).error_count = 0) :=
  ⟨by decide, (c9_exit_code.2.2 parsedateEx now0 true [Except.ok feedGood, Except.ok feed45]
    ⟨2, 1, 1, 0⟩ 0 (by decide)).1⟩

/-- C10: whenever `check_feed` returns a result on a feed with items,
the warnings are exactly the concatenation, in this fixed order, of the
missing-title warning, the missing-pubDate warning and the staleness
warning, each contributing at most one string — so at most three
warnings — and the error list (the missing-link finding) has at most one
element. -/
theorem c10_warning_shape (pd : String → Option PDate) (now : Int) (root : Elem)
    (r : CheckResult) (hne : root.findallItems.isEmpty = false)
    (h : check_feed pd now (Except.ok root) = some r) :
    ∃ sw, freshness now (newestOf pd root.findallItems) = some sw ∧
      r.warnings =
        titleWarning (countMissing "title" root.findallItems) root.findallItems.length ++
          dateWarning (countMissing "pubDate" root.findallItems) root.findallItems.length ++
          sw ∧
      (titleWarning (countMissing "title" root.findallItems)
        root.findallItems.length).length ≤ 1 ∧
      (dateWarning (countMissing "pubDate" root.findallItems)
        root.findallItems.length).length ≤ 1 ∧
      sw.length ≤ 1 ∧ r.warnings.length ≤ 3 ∧ r.errors.length ≤ 1 := by
  obtain ⟨sw, hf, hok, hw, herr⟩ := check_feed_ok_inv pd now root r hne h
  have ht : (titleWarning (countMissing "title" root.findallItems)
      root.findallItems.length).length ≤ 1 := by
    unfold titleWarning
    split <;> simp
  have hd : (dateWarning (countMissing "pubDate" root.findallItems)
      root.findallItems.length).length ≤ 1 := by
    unfold dateWarning
    split <;> simp
  have hsw : sw.length ≤ 1 := freshness_some_length now _ sw hf
  have hwarn : r.warnings =
      titleWarning (countMissing "title" root.findallItems) root.findallItems.length ++
        dateWarning (countMissing "pubDate" root.findallItems) root.findallItems.length ++
        sw := by
    rw [hw]
    unfold fieldWarnings
    rw [(scan_counts pd root.findallItems).1, (scan_counts pd root.findallItems).2.2.1]
  refine ⟨sw, hf, hwarn, ht, hd, hsw, ?_, ?_⟩
  · rw [hwarn]
    simp only [List.length_append]
    omega
  · rw [herr]
    unfold linkError
    split <;> simp

/-- C10 witness: the bounds at a concrete feed with two warnings and one
error. -/
theorem c10_witness :
    (⟨false, ["2/2 entries missing title", "1/2 entries missing pubDate"],
        ["1/2 entries missing link"]⟩ : CheckResult).warnings.length ≤ 3 ∧
      (⟨false, ["2/2 entries missing title", "1/2 entries missing pubDate"],
        ["1/2 entries missing link"]⟩ : CheckResult).errors.length ≤ 1 := by
  obtain ⟨sw, hf, hw, ht, hd, hsw, h3, h1⟩ := c10_warning_shape pdNone 0 feedFields
    ⟨false, ["2/2 entries missing title", "1/2 entries missing pubDate"],
      ["1/2 entries missing link"]⟩ (by decide) (by decide)
  exact ⟨h3, h1⟩

end CheckFeeds
